import Mathlib

/-!
Shallow embedding of the MediaScanner core (Go) in Lean 4, together with
theorems settling the frozen claims about its specification.

Conventions of the embedding:
- Go `time.Time` and `float64` token arithmetic are modelled with exact
  rationals; an absolute instant is a rational number of seconds.
- Stateful Go code becomes explicit state passing; fallible Go code returns
  `Except String` or `Option`.
- External collaborators (network, JSON decoding, the database row store)
  are passed in as explicit parameters so that each embedded function is a
  pure, executable transcription of the corresponding Go function.
-/

/-! ## ratelimiter: TokenBucketRateLimiter (internal/ratelimiter) -/

/-- State of `TokenBucketRateLimiter`: rate (tokens per second), bucket
size (burst capacity), current tokens, and the instant of the last refill. -/
structure TokenBucket where
  rate : ℚ
  bucketSize : ℚ
  tokens : ℚ
  lastRefill : ℚ
  deriving DecidableEq, Repr

/-- `NewTokenBucketRateLimiter`: the bucket starts full, with `lastRefill`
set to the construction instant. -/
def newTokenBucketRateLimiter (rate bucketSize now : ℚ) : TokenBucket :=
  { rate := rate, bucketSize := bucketSize, tokens := bucketSize, lastRefill := now }

/-- The `min` helper of the ratelimiter source (defined there for float64). -/
def fmin (a b : ℚ) : ℚ :=
  if a < b then a else b

/-- `refill`: add `elapsed * rate` tokens, capped at `bucketSize`, and move
`lastRefill` to the current instant. -/
def TokenBucket.refill (tb : TokenBucket) (now : ℚ) : TokenBucket :=
  let elapsed := now - tb.lastRefill
  { tb with lastRefill := now, tokens := fmin (tb.tokens + elapsed * tb.rate) tb.bucketSize }

/-- `TryWait`: refill, then consume one token and answer `true` when at
least one token is available, else answer `false`.  The middle component is
the instant at which the call returns: the Go body contains no sleeping
construct, so the call returns at the instant it was made. -/
def TokenBucket.tryWait (tb : TokenBucket) (now : ℚ) : Bool × ℚ × TokenBucket :=
  let tb := tb.refill now
  if tb.tokens ≥ 1 then
    (true, now, { tb with tokens := tb.tokens - 1 })
  else
    (false, now, tb)

/-- `Wait` (cancellation disregarded): refill; if a token is available
consume it and return at once, otherwise sleep for the deficit duration
`(1 - tokens) / rate`, refill again, and consume.  The first component is
the instant at which the call returns. -/
def TokenBucket.wait (tb : TokenBucket) (now : ℚ) : ℚ × TokenBucket :=
  let tb1 := tb.refill now
  if tb1.tokens ≥ 1 then
    (now, { tb1 with tokens := tb1.tokens - 1 })
  else
    let waitTime := (1 - tb1.tokens) / tb1.rate
    let tb2 := tb1.refill (now + waitTime)
    (now + waitTime, { tb2 with tokens := tb2.tokens - 1 })

/-- Run a sequence of `TryWait` calls at the given instants, collecting the
Boolean results and the final bucket state. -/
def tryWaitRun (tb : TokenBucket) : List ℚ → List Bool × TokenBucket
  | [] => ([], tb)
  | t :: ts =>
    let r := tb.tryWait t
    let rest := tryWaitRun r.2.2 ts
    (r.1 :: rest.1, rest.2)

/-- Invariant of the C1 scenario after the bucket has been emptied at
instant 0: rate 5, burst 10, and the tokens are exactly what has dripped in
since instant 0, still short of one whole token. -/
def EmptiedAtZero (tb : TokenBucket) : Prop :=
  tb.rate = 5 ∧ tb.bucketSize = 10 ∧ tb.tokens = 5 * tb.lastRefill ∧
    0 ≤ tb.lastRefill ∧ tb.lastRefill < 1 / 5

lemma tryWait_fail_of_emptied (tb : TokenBucket) (h : EmptiedAtZero tb) (t : ℚ)
    (ht0 : 0 ≤ t) (ht : t < 1 / 5) :
    (tb.tryWait t).1 = false ∧ EmptiedAtZero (tb.tryWait t).2.2 := by
  obtain ⟨hr, hb, htok, hl0, hl⟩ := h
  have htokval : tb.tokens + (t - tb.lastRefill) * tb.rate = 5 * t := by
    rw [htok, hr]; ring
  have h5t : 5 * t < 1 := by linarith
  have hlt10 : (5 : ℚ) * t < 10 := by linarith
  simp only [TokenBucket.tryWait, TokenBucket.refill, fmin, htokval, hb, if_pos hlt10]
  constructor
  · simp only [ge_iff_le]
    rw [if_neg (by linarith)]
  · rw [if_neg (by linarith : ¬ (1 : ℚ) ≤ 5 * t)]
    exact ⟨hr, rfl, rfl, ht0, ht⟩

lemma tryWait_succeed_of_emptied (tb : TokenBucket) (h : EmptiedAtZero tb) (t : ℚ)
    (ht : 1 / 5 ≤ t) : (tb.tryWait t).1 = true := by
  obtain ⟨hr, hb, htok, hl0, hl⟩ := h
  have htokval : tb.tokens + (t - tb.lastRefill) * tb.rate = 5 * t := by
    rw [htok, hr]; ring
  have h5t : (1 : ℚ) ≤ 5 * t := by linarith
  simp only [TokenBucket.tryWait, TokenBucket.refill, fmin, htokval, hb]
  by_cases hc : (5 : ℚ) * t < 10
  · rw [if_pos hc, if_pos (by simpa using h5t)]
  · rw [if_neg hc, if_pos (by norm_num)]

lemma tryWaitRun_fail_of_emptied (ts : List ℚ) (tb : TokenBucket) (h : EmptiedAtZero tb)
    (hts : ∀ t ∈ ts, 0 ≤ t ∧ t < 1 / 5) :
    (tryWaitRun tb ts).1 = List.replicate ts.length false ∧
      EmptiedAtZero (tryWaitRun tb ts).2 := by
  induction ts generalizing tb with
  | nil => exact ⟨rfl, h⟩
  | cons t ts ih =>
    obtain ⟨ht0, htlt⟩ := hts t (List.mem_cons_self t ts)
    obtain ⟨hfail, hinv⟩ := tryWait_fail_of_emptied tb h t ht0 htlt
    obtain ⟨hrun, hinv2⟩ := ih _ hinv (fun u hu => hts u (List.mem_cons_of_mem t hu))
    simp only [tryWaitRun, hfail, hrun, List.length_cons, List.replicate_succ]
    exact ⟨trivial, hinv2⟩

lemma emptied_after_ten :
    EmptiedAtZero (tryWaitRun (newTokenBucketRateLimiter 5 10 0) (List.replicate 10 0)).2 := by
  have hstate :
      (tryWaitRun (newTokenBucketRateLimiter 5 10 0) (List.replicate 10 0)).2 =
        { rate := 5, bucketSize := 10, tokens := 0, lastRefill := 0 } := by
    norm_num [tryWaitRun, TokenBucket.tryWait, TokenBucket.refill, fmin,
      newTokenBucketRateLimiter, List.replicate]
  rw [hstate]
  refine ⟨rfl, rfl, by norm_num, le_refl 0, by norm_num⟩

/-- C1.  For a fresh token bucket with rate 5 tokens/second and burst 10
(bucket starts full), constructed at instant 0: (i) `TryWait` always returns
at the instant it is invoked (it never sleeps); (ii) ten immediate `TryWait`
calls all succeed (in particular the first nine and the tenth); (iii) an
immediate eleventh fails; (iv) after the bucket is emptied, any further
sequence of `TryWait` calls at instants before 0.2 s all fail, and a
`TryWait` at any instant ≥ 0.2 s after the emptying then succeeds. -/
theorem c1_token_bucket_bound :
    (∀ (tb : TokenBucket) (now : ℚ), (tb.tryWait now).2.1 = now) ∧
    (tryWaitRun (newTokenBucketRateLimiter 5 10 0) (List.replicate 10 0)).1 =
      List.replicate 10 true ∧
    ((tryWaitRun (newTokenBucketRateLimiter 5 10 0) (List.replicate 10 0)).2.tryWait 0).1 =
      false ∧
    ∀ ts : List ℚ, (∀ t ∈ ts, 0 ≤ t ∧ t < 1 / 5) →
      (tryWaitRun (tryWaitRun (newTokenBucketRateLimiter 5 10 0) (List.replicate 10 0)).2
          ts).1 = List.replicate ts.length false ∧
      ∀ t : ℚ, 1 / 5 ≤ t →
        ((tryWaitRun (tryWaitRun (newTokenBucketRateLimiter 5 10 0) (List.replicate 10 0)).2
            ts).2.tryWait t).1 = true := by
  refine ⟨?_, ?_, ?_, ?_⟩
  · intro tb now
    simp only [TokenBucket.tryWait]
    by_cases hc : (tb.refill now).tokens ≥ 1 <;> simp [hc]
  · norm_num [tryWaitRun, TokenBucket.tryWait, TokenBucket.refill, fmin,
      newTokenBucketRateLimiter, List.replicate]
  · exact (tryWait_fail_of_emptied _ emptied_after_ten 0 (le_refl 0) (by norm_num)).1
  · intro ts hts
    obtain ⟨hrun, hinv⟩ := tryWaitRun_fail_of_emptied ts _ emptied_after_ten hts
    exact ⟨hrun, fun t ht => tryWait_succeed_of_emptied _ hinv t ht⟩

/-- Witness for C1 at concrete inputs: a failing `TryWait` at 0.1 s, then a
succeeding one at 0.2 s. -/
theorem c1_token_bucket_bound_witness :
    (tryWaitRun (tryWaitRun (newTokenBucketRateLimiter 5 10 0) (List.replicate 10 0)).2
        [1 / 10]).1 = List.replicate 1 false ∧
    ((tryWaitRun (tryWaitRun (newTokenBucketRateLimiter 5 10 0) (List.replicate 10 0)).2
        [1 / 10]).2.tryWait (1 / 5)).1 = true := by
  obtain ⟨hrun, hnext⟩ := c1_token_bucket_bound.2.2.2 [1 / 10] (by norm_num)
  exact ⟨hrun, hnext (1 / 5) (le_refl (1 / 5))⟩

/-! ## database: APICache rows and GetAPICache (internal/database) -/

/-- A cached API response row (`models.APICache`), with the expiry instant
in seconds. -/
structure APICache where
  provider : String
  query : String
  response : String
  expiresAt : ℚ
  deriving DecidableEq, Repr

/-- `Database.GetAPICache`: the first row matching the provider and query
whose `expires_at` is strictly later than the current instant; no such row
is a miss (`none`). -/
def getAPICache (rows : List APICache) (provider query : String) (now : ℚ) :
    Option APICache :=
  rows.find? (fun c => c.provider == provider && c.query == query &&
    decide (now < c.expiresAt))

/-! ## api: TMDBClient.SearchMovie (internal/api/tmdb.go)

The external collaborators are parameters: `decode` models
`json.Unmarshal` of a cached response into a `MovieSearchResult` (the
payload itself is kept serialized as a `String`), and `net` models the
outcome of `client.GetSearchMovies` followed by result processing and
`json.Marshal`.  Context cancellation is not modelled, so the token-bucket
`Wait` always admits the call (after its sleep). -/

/-- The fields of `config.CacheConfig` used by `SearchMovie`. -/
structure CacheConfig where
  enabled : Bool
  searchTTL : ℚ
  deriving DecidableEq, Repr

/-- The cache key `fmt.Sprintf("movie:%s:%d", query, year)`. -/
def movieCacheKey (query : String) (year : ℤ) : String :=
  "movie:" ++ query ++ ":" ++ toString year

/-- `ProviderRateLimiter.Wait`: look up the limiter registered for the
provider; with none registered, allow immediately without touching any
bucket, otherwise run the token bucket `Wait`. -/
def providerWait (limiters : List (String × TokenBucket)) (provider : String)
    (now : ℚ) : List (String × TokenBucket) :=
  match limiters.find? (fun p => p.1 == provider) with
  | none => limiters
  | some p =>
    let w := p.2.wait now
    limiters.map (fun q => if q.1 == provider then (q.1, w.2) else q)

/-- Observable outcome of one `SearchMovie` call. -/
structure MovieSearchOutcome where
  result : Except String String
  waitInvoked : Bool
  networkCalled : Bool
  limiters : Option (List (String × TokenBucket))
  rows : List APICache
  deriving Repr

/-- `TMDBClient.SearchMovie`: consult the TTL cache first (when caching is
enabled); a hit that deserializes returns the cached payload at once.
Otherwise invoke the rate limiter (when one is wired) and perform the
network call; on success write the result back with expiry `SearchTTL`
hours from now (24 h when the configured TTL is not positive). -/
def tmdbSearchMovie (cacheConfig : Option CacheConfig) (rows : List APICache)
    (limiters : Option (List (String × TokenBucket)))
    (decode : String → Option String) (net : Except String String)
    (query : String) (year : ℤ) (now : ℚ) : MovieSearchOutcome :=
  let cacheKey := movieCacheKey query year
  let cacheUse := match cacheConfig with
    | some cc => cc.enabled
    | none => false
  let hit : Option String :=
    if cacheUse then
      match getAPICache rows "tmdb" cacheKey now with
      | some c => decode c.response
      | none => none
    else none
  match hit with
  | some payload =>
    { result := .ok payload, waitInvoked := false, networkCalled := false,
      limiters := limiters, rows := rows }
  | none =>
    let limiters2 := match limiters with
      | some ls => some (providerWait ls "tmdb" now)
      | none => none
    match net with
    | .error e =>
      { result := .error ("TMDB search movie error: " ++ e),
        waitInvoked := limiters.isSome, networkCalled := true,
        limiters := limiters2, rows := rows }
    | .ok payload =>
      let rows2 :=
        match cacheConfig with
        | some cc =>
          if cc.enabled then
            let ttl := if cc.searchTTL ≤ 0 then (24 : ℚ) else cc.searchTTL
            rows ++ [{ provider := "tmdb", query := cacheKey, response := payload,
                       expiresAt := now + ttl * 3600 }]
          else rows
        | none => rows
      { result := .ok payload, waitInvoked := limiters.isSome, networkCalled := true,
        limiters := limiters2, rows := rows2 }

lemma tmdbSearchMovie_hit (cc : CacheConfig) (rows : List APICache)
    (limiters : Option (List (String × TokenBucket)))
    (decode : String → Option String) (net : Except String String)
    (query : String) (year : ℤ) (now : ℚ) (henabled : cc.enabled = true)
    (c : APICache) (payload : String)
    (hget : getAPICache rows "tmdb" (movieCacheKey query year) now = some c)
    (hdec : decode c.response = some payload) :
    tmdbSearchMovie (some cc) rows limiters decode net query year now =
      { result := .ok payload, waitInvoked := false, networkCalled := false,
        limiters := limiters, rows := rows } := by
  simp only [tmdbSearchMovie, henabled, if_pos, hget, hdec]

lemma tmdbSearchMovie_miss (cc : CacheConfig) (rows : List APICache)
    (limiters : Option (List (String × TokenBucket)))
    (decode : String → Option String) (net : Except String String)
    (query : String) (year : ℤ) (now : ℚ) (henabled : cc.enabled = true)
    (hmiss : getAPICache rows "tmdb" (movieCacheKey query year) now = none ∨
      ∃ c, getAPICache rows "tmdb" (movieCacheKey query year) now = some c ∧
        decode c.response = none) :
    (tmdbSearchMovie (some cc) rows limiters decode net query year now).waitInvoked
        = limiters.isSome ∧
    (tmdbSearchMovie (some cc) rows limiters decode net query year now).networkCalled
        = true := by
  have hinner : (match getAPICache rows "tmdb" (movieCacheKey query year) now with
      | some c => decode c.response
      | none => none) = none := by
    rcases hmiss with h | ⟨c, hc, hdec⟩
    · rw [h]
    · rw [hc]; exact hdec
  rcases net with e | payload <;>
    simp [tmdbSearchMovie, henabled, hinner]

/-- C2.  With caching enabled, the TTL cache is consulted before any
rate-limit token is consumed: a hit (cached, unexpired, deserializable
entry) returns the cached payload with the rate limiter untouched
(`Wait` not invoked, every bucket unchanged) and no network call; only on
a miss (no unexpired row, or a row that fails to deserialize) is the
rate limiter invoked and the network call made. -/
theorem c2_cache_before_rate_limit (cc : CacheConfig) (rows : List APICache)
    (limiters : Option (List (String × TokenBucket)))
    (decode : String → Option String) (net : Except String String)
    (query : String) (year : ℤ) (now : ℚ) (henabled : cc.enabled = true) :
    (∀ c payload, getAPICache rows "tmdb" (movieCacheKey query year) now = some c →
      decode c.response = some payload →
      tmdbSearchMovie (some cc) rows limiters decode net query year now =
        { result := .ok payload, waitInvoked := false, networkCalled := false,
          limiters := limiters, rows := rows }) ∧
    ((getAPICache rows "tmdb" (movieCacheKey query year) now = none ∨
      ∃ c, getAPICache rows "tmdb" (movieCacheKey query year) now = some c ∧
        decode c.response = none) →
      (tmdbSearchMovie (some cc) rows limiters decode net query year now).waitInvoked
          = limiters.isSome ∧
      (tmdbSearchMovie (some cc) rows limiters decode net query year now).networkCalled
          = true) :=
  ⟨fun c payload hget hdec =>
    tmdbSearchMovie_hit cc rows limiters decode net query year now henabled
      c payload hget hdec,
   fun hmiss =>
    tmdbSearchMovie_miss cc rows limiters decode net query year now henabled hmiss⟩

/-- Witness for C2: a one-row cache; a hit at instant 0 on that row, and a
miss (deserialization failure) on the same row. -/
theorem c2_cache_before_rate_limit_witness :
    (tmdbSearchMovie (some { enabled := true, searchTTL := 24 })
        [{ provider := "tmdb", query := movieCacheKey "Inception" 2010,
           response := "PAYLOAD", expiresAt := 3600 }]
        (some [("tmdb", newTokenBucketRateLimiter 5 10 0)]) some (.ok "NET")
        "Inception" 2010 0 =
      { result := .ok "PAYLOAD", waitInvoked := false, networkCalled := false,
        limiters := some [("tmdb", newTokenBucketRateLimiter 5 10 0)],
        rows := [{ provider := "tmdb", query := movieCacheKey "Inception" 2010,
                   response := "PAYLOAD", expiresAt := 3600 }] }) ∧
    (tmdbSearchMovie (some { enabled := true, searchTTL := 24 })
        [{ provider := "tmdb", query := movieCacheKey "Inception" 2010,
           response := "PAYLOAD", expiresAt := 3600 }]
        (some [("tmdb", newTokenBucketRateLimiter 5 10 0)]) (fun _ => none) (.ok "NET")
        "Inception" 2010 0).networkCalled = true := by
  constructor
  · refine (c2_cache_before_rate_limit _ _ _ _ _ _ _ _ rfl).1
      { provider := "tmdb", query := movieCacheKey "Inception" 2010,
        response := "PAYLOAD", expiresAt := 3600 } "PAYLOAD" ?_ rfl
    simp [getAPICache, List.find?, movieCacheKey]
  · refine ((c2_cache_before_rate_limit _ _ _ _ _ _ _ _ rfl).2 (Or.inr ?_)).2
    refine ⟨{ provider := "tmdb", query := movieCacheKey "Inception" 2010,
              response := "PAYLOAD", expiresAt := 3600 }, ?_, rfl⟩
    simp [getAPICache, List.find?, movieCacheKey]

/-- C6.  A lookup for a key whose stored expiry is strictly later than the
current instant is a hit: `GetAPICache` returns the row and (when it
deserializes) `SearchMovie` returns the cached payload with no network
call.  A lookup for a key whose expiry is at or before the current instant
is a miss: `GetAPICache` returns nothing and `SearchMovie` proceeds to the
fresh provider fetch. -/
theorem c6_cache_expiry (e : APICache) (cc : CacheConfig)
    (limiters : Option (List (String × TokenBucket)))
    (decode : String → Option String) (net : Except String String)
    (query : String) (year : ℤ) (now : ℚ) (henabled : cc.enabled = true)
    (hp : e.provider = "tmdb") (hq : e.query = movieCacheKey query year) :
    (now < e.expiresAt →
      getAPICache [e] "tmdb" (movieCacheKey query year) now = some e ∧
      ∀ payload, decode e.response = some payload →
        (tmdbSearchMovie (some cc) [e] limiters decode net query year now).result =
          .ok payload ∧
        (tmdbSearchMovie (some cc) [e] limiters decode net query year now).networkCalled =
          false) ∧
    (e.expiresAt ≤ now →
      getAPICache [e] "tmdb" (movieCacheKey query year) now = none ∧
      (tmdbSearchMovie (some cc) [e] limiters decode net query year now).networkCalled =
        true) := by
  constructor
  · intro hfresh
    have hget : getAPICache [e] "tmdb" (movieCacheKey query year) now = some e := by
      simp [getAPICache, List.find?, hp, hq, hfresh]
    refine ⟨hget, fun payload hdec => ?_⟩
    have h := tmdbSearchMovie_hit cc [e] limiters decode net query year now
      henabled e payload hget hdec
    rw [h]
    exact ⟨rfl, rfl⟩
  · intro hstale
    have hget : getAPICache [e] "tmdb" (movieCacheKey query year) now = none := by
      simp [getAPICache, List.find?, not_lt.mpr hstale]
    exact ⟨hget, (tmdbSearchMovie_miss cc [e] limiters decode net query year now
      henabled (Or.inl hget)).2⟩

/-- Witness for C6: the same row is a hit one hour before its expiry and a
miss one hour after it. -/
theorem c6_cache_expiry_witness :
    (tmdbSearchMovie (some { enabled := true, searchTTL := 24 })
        [{ provider := "tmdb", query := movieCacheKey "Inception" 2010,
           response := "PAYLOAD", expiresAt := 3600 }]
        none some (.ok "NET") "Inception" 2010 0).result = .ok "PAYLOAD" ∧
    (tmdbSearchMovie (some { enabled := true, searchTTL := 24 })
        [{ provider := "tmdb", query := movieCacheKey "Inception" 2010,
           response := "PAYLOAD", expiresAt := 3600 }]
        none some (.ok "NET") "Inception" 2010 7200).networkCalled = true := by
  constructor
  · exact (((c6_cache_expiry
      { provider := "tmdb", query := movieCacheKey "Inception" 2010,
        response := "PAYLOAD", expiresAt := 3600 }
      { enabled := true, searchTTL := 24 } none some (.ok "NET") "Inception" 2010 0
      rfl rfl rfl).1 (by norm_num)).2 "PAYLOAD" rfl).1
  · exact ((c6_cache_expiry
      { provider := "tmdb", query := movieCacheKey "Inception" 2010,
        response := "PAYLOAD", expiresAt := 3600 }
      { enabled := true, searchTTL := 24 } none some (.ok "NET") "Inception" 2010 7200
      rfl rfl rfl).2 (by norm_num)).2

/-! ## scanner: Scan and the individual-file filtering of scanAndProcess
(internal/scanner/scanner.go, cmd/mediascanner/main.go)

The recursive directory walk is abstracted as the sequence of candidate
files it visits, each given by its parent directory and base name;
exclude-pattern matching and the database dedupe lookup are Boolean
parameters of the configuration. -/

/-- The `strings.ToLower` of a string (ASCII case folding suffices for the
extension comparison in the scanner). -/
def lowerStr (s : String) : String :=
  String.mk (s.data.map Char.toLower)

/-- The `filepath.Ext` of a base name: the suffix starting at the final
dot, or the empty string when there is no dot. -/
def extOf (name : String) : String :=
  let rcs := name.data.reverse
  if rcs.any (fun c => c = '.') then
    String.mk ('.' :: (rcs.takeWhile (fun c => ¬ (c = '.'))).reverse)
  else ""

/-- The `strings.HasPrefix s pre` test. -/
def hasPrefixGo (s pre : String) : Bool :=
  pre.data.isPrefixOf s.data

/-- The scanner configuration fields used by `Scan`. -/
structure ScanConfig where
  videoExts : List String
  excludeName : String → Bool
  inDB : String → Bool
  batchThreshold : Nat

/-- A candidate file visited by the walk. -/
structure ScanFile where
  dir : String
  name : String
  deriving DecidableEq, Repr

/-- The full path of a candidate file (its parent directory is
`filepath.Dir` of this path). -/
def ScanFile.path (f : ScanFile) : String :=
  f.dir ++ "/" ++ f.name

/-- The `ScanResult`: new files, per-directory batch groups, and excluded
files. -/
structure ScanResult where
  newFiles : List String
  batchDirs : List (String × List String)
  excludedFiles : List String
  deriving DecidableEq, Repr

/-- Append a path to the batch group of its directory
(`result.BatchDirs[dir] = append(result.BatchDirs[dir], path)`). -/
def addBatch (bd : List (String × List String)) (dir path : String) :
    List (String × List String) :=
  if bd.any (fun p => p.1 == dir) then
    bd.map (fun p => if p.1 == dir then (p.1, p.2 ++ [path]) else p)
  else bd ++ [(dir, [path])]

/-- The per-file body of the walk in `Scanner.Scan`: skip non-video
extensions, record excluded names, skip paths already in the database, and
otherwise record the file both as new and in its directory group. -/
def scanStep (cfg : ScanConfig) (r : ScanResult) (f : ScanFile) : ScanResult :=
  let ext := lowerStr (extOf f.name)
  if ¬ (cfg.videoExts.map lowerStr).contains ext then r
  else if cfg.excludeName f.name then
    { r with excludedFiles := r.excludedFiles ++ [f.path] }
  else if cfg.inDB f.path then r
  else
    { r with newFiles := r.newFiles ++ [f.path],
             batchDirs := addBatch r.batchDirs f.dir f.path }

/-- `Scanner.Scan`: walk all candidates, then keep only the directory
groups whose size reaches the batch threshold. -/
def scan (cfg : ScanConfig) (files : List ScanFile) : ScanResult :=
  let r := files.foldl (scanStep cfg) ⟨[], [], []⟩
  { r with batchDirs := r.batchDirs.filter (fun p => cfg.batchThreshold ≤ p.2.length) }

/-- The individual-file selection of `scanAndProcess`: process each new
file unless some batch directory is a string prefix of its path
(`strings.HasPrefix(file, dir)`). -/
def individualNewFiles (res : ScanResult) : List String :=
  res.newFiles.filter (fun file => ¬ res.batchDirs.any (fun p => hasPrefixGo file p.1))

/-- Concrete scan configuration exhibiting the C3 divergence: batch
threshold 2, no exclusions, empty database. -/
def c3cfg : ScanConfig :=
  { videoExts := [".mp4"], excludeName := fun _ => false, inDB := fun _ => false,
    batchThreshold := 2 }

/-- Concrete walk for C3: two new files directly in `/a` (reaching the
threshold) and one new file in the subdirectory `/a/sub` (one below the
threshold). -/
def c3files : List ScanFile :=
  [⟨"/a", "x.mp4"⟩, ⟨"/a", "y.mp4"⟩, ⟨"/a/sub", "z.mp4"⟩]

/-- C3.  Evaluation at the failing input: `/a/sub` holds exactly
`batchThreshold - 1` surviving files, so the claim requires its file
`/a/sub/z.mp4` to be reported as an individual new file; instead, because
`scanAndProcess` skips any new file for which some batch directory is a
plain string prefix of the path, and the batch directory `/a` is a string
prefix of `/a/sub/z.mp4`, the file is dropped: it is a surviving new file,
`/a/sub` yields no batch job, yet the file is neither selected for
individual processing nor contained in any batch job. -/
theorem c3_batch_threshold_dropped_file :
    "/a/sub/z.mp4" ∈ (scan c3cfg c3files).newFiles ∧
    (∀ p ∈ (scan c3cfg c3files).batchDirs, p.1 ≠ "/a/sub") ∧
    (scan c3cfg c3files).batchDirs = [("/a", ["/a/x.mp4", "/a/y.mp4"])] ∧
    "/a/sub/z.mp4" ∉ individualNewFiles (scan c3cfg c3files) ∧
    ∀ p ∈ (scan c3cfg c3files).batchDirs, "/a/sub/z.mp4" ∉ p.2 := by
  decide

/-! ## worker: Pool queues and the channel semaphores
(internal/worker/worker.go, internal/worker/semaphore.go)

A buffered Go channel of capacity `cap` holding `held` empty structs models
each semaphore; a non-blocking send succeeds exactly when the buffer has a
free slot, a non-blocking receive succeeds exactly when the buffer is
non-empty. -/

/-- A channel-backed counting semaphore: buffer capacity and the number of
currently buffered (held) slots. -/
structure ChannelSem where
  cap : Nat
  held : Nat
  deriving DecidableEq, Repr

/-- `Release`: non-blocking receive with a `default` branch; when nothing
is held the branch only logs a warning (returned Boolean). -/
def ChannelSem.release (s : ChannelSem) : ChannelSem × Bool :=
  if 0 < s.held then ({ s with held := s.held - 1 }, false)
  else (s, true)

/-- `Acquire` (cancellation aside): a send into the buffer, which succeeds
exactly when a slot is free; `none` means the caller blocks. -/
def ChannelSem.acquire (s : ChannelSem) : Option ChannelSem :=
  if s.held < s.cap then some { s with held := s.held + 1 } else none

/-- The two task kinds of the worker pool. -/
inductive WTaskType where
  | mediaFile
  | batchProcess
  deriving DecidableEq, Repr

/-- A task submitted to the pool (the carried record is irrelevant to the
queueing behaviour and kept as an identifier). -/
structure WTask where
  taskType : WTaskType
  ident : Nat
  deriving DecidableEq, Repr

/-- The worker pool state: the two bounded queues (both of capacity
`cfg.QueueSize`), the three gate semaphores, and whether the pool context
has been cancelled. -/
structure Pool where
  queueSize : Nat
  taskQueue : List WTask
  batchTaskQueue : List WTask
  llmSem : ChannelSem
  apiSem : ChannelSem
  fileOpSem : ChannelSem
  ctxDone : Bool
  deriving DecidableEq, Repr

/-- `Pool.AddTask`: refuse when the pool is stopped; otherwise a
non-blocking send into the queue of the task kind, answering a
queue-full error when the buffer has no free slot. -/
def addTask (p : Pool) (t : WTask) : Except String Pool :=
  if p.ctxDone then .error "worker pool is stopped"
  else if t.taskType = .batchProcess then
    if p.batchTaskQueue.length < p.queueSize then
      .ok { p with batchTaskQueue := p.batchTaskQueue ++ [t] }
    else .error "batch task queue is full"
  else
    if p.taskQueue.length < p.queueSize then
      .ok { p with taskQueue := p.taskQueue ++ [t] }
    else .error "task queue is full"

/-- `Pool.ReleaseLLMSemaphore`. -/
def Pool.releaseLLMSemaphore (p : Pool) : Pool × Bool :=
  let r := p.llmSem.release
  ({ p with llmSem := r.1 }, r.2)

/-- `Pool.ReleaseAPISemaphore`. -/
def Pool.releaseAPISemaphore (p : Pool) : Pool × Bool :=
  let r := p.apiSem.release
  ({ p with apiSem := r.1 }, r.2)

/-- `Pool.ReleaseFileOpSemaphore`. -/
def Pool.releaseFileOpSemaphore (p : Pool) : Pool × Bool :=
  let r := p.fileOpSem.release
  ({ p with fileOpSem := r.1 }, r.2)

/-- C8.  Submitting to a running pool whose relevant bounded queue is full
answers the corresponding "queue full" error at once, without blocking and
without enqueuing; submitting to a non-full queue succeeds and appends the
task. -/
theorem c8_queue_overflow (p : Pool) (t : WTask) (hrun : p.ctxDone = false) :
    (t.taskType = .batchProcess →
      (p.queueSize ≤ p.batchTaskQueue.length →
        addTask p t = .error "batch task queue is full") ∧
      (p.batchTaskQueue.length < p.queueSize →
        addTask p t = .ok { p with batchTaskQueue := p.batchTaskQueue ++ [t] })) ∧
    (t.taskType = .mediaFile →
      (p.queueSize ≤ p.taskQueue.length →
        addTask p t = .error "task queue is full") ∧
      (p.taskQueue.length < p.queueSize →
        addTask p t = .ok { p with taskQueue := p.taskQueue ++ [t] })) := by
  constructor
  · intro hbatch
    constructor
    · intro hfull
      simp [addTask, hrun, hbatch, Nat.not_lt.mpr hfull]
    · intro hfree
      simp [addTask, hrun, hbatch, hfree]
  · intro hsingle
    have hne : ¬ t.taskType = .batchProcess := by
      rw [hsingle]; intro hcontr; cases hcontr
    constructor
    · intro hfull
      simp [addTask, hrun, hne, Nat.not_lt.mpr hfull]
    · intro hfree
      simp [addTask, hrun, hne, hfree]

/-- Witness for C8: a pool with queue capacity 1 whose batch queue is full
rejects a batch task; its empty general queue accepts a single-file task. -/
theorem c8_queue_overflow_witness :
    addTask
      { queueSize := 1, taskQueue := [], batchTaskQueue := [⟨.batchProcess, 0⟩],
        llmSem := ⟨2, 0⟩, apiSem := ⟨2, 0⟩, fileOpSem := ⟨2, 0⟩, ctxDone := false }
      ⟨.batchProcess, 1⟩ = .error "batch task queue is full" ∧
    addTask
      { queueSize := 1, taskQueue := [], batchTaskQueue := [⟨.batchProcess, 0⟩],
        llmSem := ⟨2, 0⟩, apiSem := ⟨2, 0⟩, fileOpSem := ⟨2, 0⟩, ctxDone := false }
      ⟨.mediaFile, 2⟩ =
      .ok { queueSize := 1, taskQueue := [⟨.mediaFile, 2⟩],
            batchTaskQueue := [⟨.batchProcess, 0⟩],
            llmSem := ⟨2, 0⟩, apiSem := ⟨2, 0⟩, fileOpSem := ⟨2, 0⟩,
            ctxDone := false } := by
  constructor
  · exact ((c8_queue_overflow _ _ rfl).1 rfl).1 (by decide)
  · exact ((c8_queue_overflow _ _ rfl).2 rfl).2 (by decide)

/-- C9.  Releasing a gate that holds no acquired slot is a safe no-op: the
plain channel semaphore and each of the three pool gates (LLM,
metadata-API, file-operation) return at once with the state — and hence
the available capacity — unchanged, reporting only the logged warning. -/
theorem c9_release_never_acquired (p : Pool) (s : ChannelSem) :
    (s.held = 0 → s.release = (s, true)) ∧
    (p.llmSem.held = 0 → p.releaseLLMSemaphore = (p, true)) ∧
    (p.apiSem.held = 0 → p.releaseAPISemaphore = (p, true)) ∧
    (p.fileOpSem.held = 0 → p.releaseFileOpSemaphore = (p, true)) := by
  refine ⟨?_, ?_, ?_, ?_⟩
  · intro h
    simp [ChannelSem.release, h]
  · intro h
    simp [Pool.releaseLLMSemaphore, ChannelSem.release, h]
  · intro h
    simp [Pool.releaseAPISemaphore, ChannelSem.release, h]
  · intro h
    simp [Pool.releaseFileOpSemaphore, ChannelSem.release, h]

/-- Witness for C9: releasing the never-acquired LLM gate of a fresh pool
leaves the pool unchanged and logs the warning. -/
theorem c9_release_never_acquired_witness :
    Pool.releaseLLMSemaphore
        { queueSize := 1, taskQueue := [], batchTaskQueue := [],
          llmSem := ⟨2, 0⟩, apiSem := ⟨2, 0⟩, fileOpSem := ⟨2, 0⟩, ctxDone := false } =
      ({ queueSize := 1, taskQueue := [], batchTaskQueue := [],
         llmSem := ⟨2, 0⟩, apiSem := ⟨2, 0⟩, fileOpSem := ⟨2, 0⟩, ctxDone := false },
       true) ∧
    ChannelSem.release ⟨3, 0⟩ = (⟨3, 0⟩, true) := by
  constructor
  · exact (c9_release_never_acquired
      { queueSize := 1, taskQueue := [], batchTaskQueue := [],
        llmSem := ⟨2, 0⟩, apiSem := ⟨2, 0⟩, fileOpSem := ⟨2, 0⟩, ctxDone := false }
      ⟨3, 0⟩).2.1 rfl
  · exact (c9_release_never_acquired
      { queueSize := 1, taskQueue := [], batchTaskQueue := [],
        llmSem := ⟨2, 0⟩, apiSem := ⟨2, 0⟩, fileOpSem := ⟨2, 0⟩, ctxDone := false }
      ⟨3, 0⟩).1 rfl

/-! ## llm: the transport retry loop and the tool-call loop of
LLM.ProcessMediaFile (internal/llm/llm.go)

The transport is a parameter mapping the index of a `CreateChatCompletion`
invocation to its outcome (`none` is a transport error); tool handlers and
final-answer parsing are parameters as well.  The Go tool-call loop is
unbounded, so the embedding carries explicit fuel; the concurrency gate
around the conversation is modelled separately with the pool semaphores. -/

/-- A reply of the model: a requested tool (function) call, or a final
answer. -/
inductive LLMReply where
  | toolCall (name : String) (args : String)
  | final (content : String)
  deriving DecidableEq, Repr

/-- Outcome of the initial-request retry loop: the reply (when some attempt
succeeded), the number of attempts made, and the backoff sleeps performed
in seconds. -/
structure RetryOutcome where
  reply : Option LLMReply
  attempts : Nat
  sleeps : List ℚ
  deriving DecidableEq, Repr

/-- The retry loop `for i := 0; i <= maxRetries; i++` around the initial
request: attempt `i` uses transport index `i`; a failure with `i` short of
`maxRetries` sleeps `i+1` seconds and retries; a failure at `i = maxRetries`
gives up.  `rem` is the number of attempts still allowed after the current
one. -/
def attemptLoop (transport : Nat → Option LLMReply) : Nat → Nat → RetryOutcome
  | i, 0 =>
    match transport i with
    | some r => ⟨some r, i + 1, []⟩
    | none => ⟨none, i + 1, []⟩
  | i, rem + 1 =>
    match transport i with
    | some r => ⟨some r, i + 1, []⟩
    | none =>
      let rest := attemptLoop transport (i + 1) rem
      ⟨rest.reply, rest.attempts, ((i : ℚ) + 1) :: rest.sleeps⟩

/-- The tool-call loop: a final answer ends the conversation; a tool call
is dispatched to its registered handler (an unregistered name or a handler
error is fatal), and the conversation is re-sent through the transport
exactly once — a transport failure there is immediately fatal.  The second
component counts transport calls made so far. -/
def toolLoop (transport : Nat → Option LLMReply)
    (handlers : String → Option (String → Option String)) :
    Nat → LLMReply → Nat → Except String String × Nat
  | _, .final content, callIdx => (.ok content, callIdx)
  | 0, .toolCall _ _, callIdx => (.error "tool-call loop fuel exhausted", callIdx)
  | fuel + 1, .toolCall name args, callIdx =>
    match handlers name with
    | none => (.error ("unknown function: " ++ name), callIdx)
    | some h =>
      match h args with
      | none => (.error ("error executing function " ++ name), callIdx)
      | some _ =>
        match transport callIdx with
        | none => (.error "error creating chat completion", callIdx + 1)
        | some r2 => toolLoop transport handlers fuel r2 (callIdx + 1)

/-- Observable outcome of `LLM.ProcessMediaFile`. -/
structure LLMOutcome where
  result : Except String String
  transportCalls : Nat
  sleeps : List ℚ
  deriving Repr

/-- `LLM.ProcessMediaFile`: run the retried initial request, then the
tool-call loop, then parse the final content. -/
def processMediaFileLLM (maxRetries : Nat) (transport : Nat → Option LLMReply)
    (handlers : String → Option (String → Option String))
    (parse : String → Option String) (fuel : Nat) : LLMOutcome :=
  let ini := attemptLoop transport 0 maxRetries
  match ini.reply with
  | none =>
    { result := .error ("failed to process media file after " ++ toString maxRetries ++
        " retries"),
      transportCalls := ini.attempts, sleeps := ini.sleeps }
  | some r =>
    let t := toolLoop transport handlers fuel r ini.attempts
    match t.1 with
    | .error e => { result := .error e, transportCalls := t.2, sleeps := ini.sleeps }
    | .ok content =>
      match parse content with
      | none => { result := .error "error parsing LLM response",
                  transportCalls := t.2, sleeps := ini.sleeps }
      | some v => { result := .ok v, transportCalls := t.2, sleeps := ini.sleeps }

/-- Transport schedule for the C5 counterexample: the initial request
succeeds with a tool call, the first re-send fails, and any further
transport call would succeed with a final answer. -/
def c5transport : Nat → Option LLMReply :=
  fun i =>
    if i = 0 then some (.toolCall "searchTMDB" "q")
    else if i = 1 then none
    else some (.final "done")

/-- Handlers for the C5 counterexample: only `searchTMDB`, always
succeeding. -/
def c5handlers : String → Option (String → Option String) :=
  fun name => if name = "searchTMDB" then some (fun _ => some "RES") else none

/-- C5 counterexample.  With `maxRetries = 2`, the re-send after the tool
result turn fails once and the classification fails immediately after only
2 transport calls in total and no backoff — even though the next transport
call (index 2) would have returned a final answer, so a retried re-send
(as the claim states, up to `maxRetries` attempts for every transport
call) would have succeeded. -/
theorem c5_resend_not_retried :
    processMediaFileLLM 2 c5transport c5handlers some 5 =
      { result := .error "error creating chat completion",
        transportCalls := 2, sleeps := [] } ∧
    c5transport 2 = some (.final "done") := by
  constructor
  · rfl
  · rfl

lemma attemptLoop_all_fail (transport : Nat → Option LLMReply) :
    ∀ (rem i : Nat), (∀ j, i ≤ j → j ≤ i + rem → transport j = none) →
      attemptLoop transport i rem =
        ⟨none, i + rem + 1, (List.range rem).map (fun k => ((i + k : ℕ) : ℚ) + 1)⟩ := by
  intro rem
  induction rem with
  | zero =>
    intro i h
    have hi : transport i = none := h i (Nat.le_refl i) (by omega)
    simp [attemptLoop, hi]
  | succ rem ih =>
    intro i h
    have hi : transport i = none := h i (Nat.le_refl i) (by omega)
    have hrest := ih (i + 1) (fun j hj1 hj2 => h j (by omega) (by omega))
    simp only [attemptLoop, hi, hrest, RetryOutcome.mk.injEq]
    have hfun : ((fun k => ((i + k : ℕ) : ℚ) + 1) ∘ Nat.succ) =
        (fun k : ℕ => ((i + 1 + k : ℕ) : ℚ) + 1) := by
      funext k
      have harith : i + Nat.succ k = i + 1 + k := by omega
      simp [Function.comp, harith]
    refine ⟨trivial, by omega, ?_⟩
    rw [List.range_succ_eq_map, List.map_cons, List.map_map, hfun]
    simp

/-- C5 amended.  (i) The initial transport request is attempted up to
`maxRetries + 1` times with linearly increasing backoff — if every attempt
fails, the classification fails with the after-N-retries error, having made
exactly `maxRetries + 1` transport calls and slept `1, 2, …, maxRetries`
seconds between them.  (ii) A re-send after a tool-result turn is attempted
exactly once: a single transport failure there makes the classification
fail immediately, with no retry and no backoff. -/
theorem c5_retry_and_resend_semantics (maxRetries : Nat)
    (transport : Nat → Option LLMReply)
    (handlers : String → Option (String → Option String))
    (parse : String → Option String) (fuel : Nat) :
    ((∀ j, j ≤ maxRetries → transport j = none) →
      processMediaFileLLM maxRetries transport handlers parse fuel =
        { result := .error ("failed to process media file after " ++
            toString maxRetries ++ " retries"),
          transportCalls := maxRetries + 1,
          sleeps := (List.range maxRetries).map (fun k => ((k : ℕ) : ℚ) + 1) }) ∧
    (∀ name args callIdx h v, handlers name = some h → h args = some v →
      transport callIdx = none →
      toolLoop transport handlers (fuel + 1) (.toolCall name args) callIdx =
        (.error "error creating chat completion", callIdx + 1)) := by
  constructor
  · intro hall
    have h0 := attemptLoop_all_fail transport maxRetries 0
      (fun j hj1 hj2 => hall j (by omega))
    simp [processMediaFileLLM, h0]
  · intro name args callIdx h v hname hargs htrans
    simp [toolLoop, hname, hargs, htrans]

/-- Witness for the amended C5: with `maxRetries = 2` and a transport that
always fails, the classification fails after 3 attempts with sleeps of 1 s
and 2 s; and a concrete failing re-send is fatal after exactly one extra
transport call. -/
theorem c5_retry_and_resend_semantics_witness :
    processMediaFileLLM 2 (fun _ => none) c5handlers some 0 =
      { result := .error ("failed to process media file after " ++ toString 2 ++
          " retries"),
        transportCalls := 3,
        sleeps := (List.range 2).map (fun k => ((k : ℕ) : ℚ) + 1) } ∧
    toolLoop (fun _ => none) c5handlers 1 (.toolCall "searchTMDB" "q") 7 =
      (.error "error creating chat completion", 8) := by
  constructor
  · exact (c5_retry_and_resend_semantics 2 (fun _ => none) c5handlers some 0).1
      (fun j hj => rfl)
  · exact (c5_retry_and_resend_semantics 2 (fun _ => none) c5handlers some 0).2
      "searchTMDB" "q" 7 (fun _ => some "RES") "RES" rfl rfl rfl

/-! ## processor: ProcessBatchFiles and its per-file sequence
(internal/processor/processor.go)

Database identifiers are not modelled; a media file is identified by its
original name/path.  The best-effort metadata enrichment
(`fetchAdditionalMetadata`, whose failures are only logged) can affect only
the success-notification text, abstracted as `successMessage`.  The
external fallible steps are oracles: `createMediaInfo` returns the error
text of a failing insert (or `none` on success) and `fileOp` is the
outcome of `FileOps.ProcessFile`. -/

/-- The persisted media-file record fields the processor touches. -/
structure MediaFileRec where
  originalPath : String
  originalName : String
  destinationPath : String
  status : String
  errorMessage : String
  deriving DecidableEq, Repr

/-- The classifier output fields consumed by the processor. -/
structure MediaFileResult where
  originalFilename : String
  title : String
  year : ℤ
  mediaType : String
  season : ℤ
  category : String
  subcategory : String
  deriving DecidableEq, Repr

/-- A notification record (subject kept as the file name). -/
structure NotificationRec where
  subject : String
  ntype : String
  message : String
  deriving DecidableEq, Repr

/-- A batch process record. -/
structure BatchRec where
  directory : String
  status : String
  deriving DecidableEq, Repr

/-- External collaborators of the per-file processing sequence. -/
structure BatchEnv where
  notificationsEnabled : Bool
  createMediaInfo : String → Option String
  destRoot : String
  fileOp : String → String → Except String String
  successMessage : MediaFileRec → MediaFileResult → String

/-- The lookup in the `resultMap` built by iterating over the result array
(`resultMap[result.OriginalFilename] = result`, so a later entry wins). -/
def resultFor (results : List MediaFileResult) (name : String) :
    Option MediaFileResult :=
  results.reverse.find? (fun r => r.originalFilename == name)

/-- `Processor.generateDestinationPath`. -/
def generateDestinationPath (destRoot : String) (r : MediaFileResult) :
    Except String String :=
  if destRoot = "" then .error "destination root is not configured"
  else if r.mediaType = "movie" then
    .ok (destRoot ++ "/" ++ r.category ++ "/" ++ r.subcategory ++ "/" ++
      r.title ++ " (" ++ toString r.year ++ ")")
  else if r.mediaType = "tv" then
    .ok (destRoot ++ "/" ++ r.category ++ "/" ++ r.subcategory ++ "/" ++
      r.title ++ " (" ++ toString r.year ++ ")" ++ "/" ++ "Season " ++
      toString r.season)
  else .error ("unknown media type: " ++ r.mediaType)

/-- `Processor.createErrorNotification` (a no-op when notifications are
disabled). -/
def errNotif (env : BatchEnv) (mf : MediaFileRec) (msg : String) :
    List NotificationRec :=
  if env.notificationsEnabled then
    [{ subject := mf.originalName, ntype := "error",
       message := "Error processing file: " ++ mf.originalName ++ "\n" ++
         "Error: " ++ msg }]
  else []

/-- The per-file body of `ProcessBatchFiles`: mark processing; a missing
entry in the result map is a failure with the explicit no-result message;
otherwise create the media info record, generate the destination path and
place the file, failing with the respective message at the first error, and
on success record the destination and emit a success notification.  The
second component is the batch-member status. -/
def processBatchFile (env : BatchEnv) (mf : MediaFileRec)
    (foundResult : Option MediaFileResult) :
    MediaFileRec × String × List NotificationRec :=
  let mfP := { mf with status := "processing" }
  match foundResult with
  | none =>
    ({ mfP with
        status := "failed",
        errorMessage := "No result found for this file in batch processing" },
     "failed",
     errNotif env mf "No result found for this file in batch processing")
  | some r =>
    match env.createMediaInfo mf.originalName with
    | some e =>
      ({ mfP with
          status := "failed",
          errorMessage := "Error creating media info record: " ++ e },
       "failed", errNotif env mf ("Error creating media info record: " ++ e))
    | none =>
      match generateDestinationPath env.destRoot r with
      | .error e =>
        ({ mfP with
            status := "failed",
            errorMessage := "Error generating destination path: " ++ e },
         "failed", errNotif env mf ("Error generating destination path: " ++ e))
      | .ok destPath =>
        match env.fileOp mf.originalPath destPath with
        | .error e =>
          ({ mfP with
              status := "failed",
              errorMessage := "Error processing file: " ++ e },
           "failed", errNotif env mf ("Error processing file: " ++ e))
        | .ok finalPath =>
          ({ mfP with status := "success", destinationPath := finalPath },
           "success",
           if env.notificationsEnabled then
             [{ subject := mf.originalName, ntype := "success",
                message := env.successMessage mf r }]
           else [])

/-- `Processor.ProcessBatchFiles`: mark the batch processing; a classifier
failure marks it failed with the member files untouched; otherwise process
every member against the result map and finally mark the batch completed
regardless of the member outcomes. -/
def processBatchFiles (env : BatchEnv) (batch : BatchRec)
    (files : List MediaFileRec)
    (llmResults : Except String (List MediaFileResult)) :
    BatchRec × List (MediaFileRec × String) × List NotificationRec :=
  match llmResults with
  | .error _ =>
    ({ batch with status := "failed" }, files.map (fun mf => (mf, "pending")), [])
  | .ok results =>
    let perFile := files.map
      (fun mf => processBatchFile env mf (resultFor results mf.originalName))
    ({ batch with status := "completed" },
     perFile.map (fun p => (p.1, p.2.1)),
     perFile.foldr (fun p acc => p.2.2 ++ acc) [])

/-- Concrete environment for C4: notifications on, every external step
succeeding; placement returns the destination directory plus a fixed base
name. -/
def c4env : BatchEnv :=
  { notificationsEnabled := true, createMediaInfo := fun _ => none,
    destRoot := "/out", fileOp := fun _ dest => .ok (dest ++ "/f.mp4"),
    successMessage := fun _ _ => "processed" }

/-- Concrete classifier result array for C4: entries for `a.mp4` and
`c.mp4`, none for `b.mp4`. -/
def c4results : List MediaFileResult :=
  [{ originalFilename := "a.mp4", title := "The Matrix", year := 1999,
     mediaType := "movie", season := 0, category := "movie",
     subcategory := "sci-fi" },
   { originalFilename := "c.mp4", title := "Heat", year := 1995,
     mediaType := "movie", season := 0, category := "movie",
     subcategory := "crime" }]

/-- The batch member of C4 whose filename the result array omits. -/
def c4fileB : MediaFileRec :=
  { originalPath := "/in/b.mp4", originalName := "b.mp4",
    destinationPath := "", status := "pending", errorMessage := "" }

/-- C4 counterexample.  The record of the member missing from the result
array carries the error message with a capital N — `"No result found for
this file in batch processing"` — not the exact lowercase message the claim
states. -/
theorem c4_message_counterexample :
    resultFor c4results "b.mp4" = none ∧
    (processBatchFile c4env c4fileB (resultFor c4results "b.mp4")).1.errorMessage =
      "No result found for this file in batch processing" ∧
    ¬ (processBatchFile c4env c4fileB (resultFor c4results "b.mp4")).1.errorMessage =
      "no result found for this file in batch processing" := by
  decide

/-- C4 amended.  When the batch result array omits a member's original
filename, that member is marked `failed` with the message "No result found
for this file in batch processing" (capital N as in the code) and an error
notification is emitted for it; members with matching results whose
media-info insert, path generation and placement succeed follow the normal
success path; and the batch is marked `completed` with every member
processed against the result map, regardless of individual failures. -/
theorem c4_batch_partial_failure (env : BatchEnv) (batch : BatchRec)
    (files : List MediaFileRec) (results : List MediaFileResult)
    (hnotif : env.notificationsEnabled = true) :
    (∀ mf, resultFor results mf.originalName = none →
      processBatchFile env mf (resultFor results mf.originalName) =
        ({ mf with
            status := "failed",
            errorMessage := "No result found for this file in batch processing" },
         "failed",
         [{ subject := mf.originalName, ntype := "error",
            message := "Error processing file: " ++ mf.originalName ++ "\n" ++
              "Error: " ++ "No result found for this file in batch processing" }])) ∧
    (∀ mf r destPath finalPath, resultFor results mf.originalName = some r →
      env.createMediaInfo mf.originalName = none →
      generateDestinationPath env.destRoot r = .ok destPath →
      env.fileOp mf.originalPath destPath = .ok finalPath →
      processBatchFile env mf (resultFor results mf.originalName) =
        ({ mf with status := "success", destinationPath := finalPath },
         "success",
         [{ subject := mf.originalName, ntype := "success",
            message := env.successMessage mf r }])) ∧
    (processBatchFiles env batch files (.ok results)).1 =
      { batch with status := "completed" } ∧
    (processBatchFiles env batch files (.ok results)).2.1 =
      files.map (fun mf =>
        ((processBatchFile env mf (resultFor results mf.originalName)).1,
         (processBatchFile env mf (resultFor results mf.originalName)).2.1)) := by
  refine ⟨?_, ?_, ?_, ?_⟩
  · intro mf hmf
    rw [hmf]
    simp [processBatchFile, errNotif, hnotif]
  · intro mf r destPath finalPath hres hmi hgen hfop
    rw [hres]
    simp [processBatchFile, hmi, hgen, hfop, hnotif]
  · simp [processBatchFiles]
  · simp [processBatchFiles, List.map_map]

/-- Witness for the amended C4: in the concrete three-file batch, `b.mp4`
fails with the no-result message and an error notification, `a.mp4`
succeeds, and the batch record completes. -/
theorem c4_batch_partial_failure_witness :
    processBatchFile c4env c4fileB (resultFor c4results "b.mp4") =
      ({ originalPath := "/in/b.mp4", originalName := "b.mp4",
         destinationPath := "", status := "failed",
         errorMessage := "No result found for this file in batch processing" },
       "failed",
       [{ subject := "b.mp4", ntype := "error",
          message := "Error processing file: " ++ "b.mp4" ++ "\n" ++
            "Error: " ++ "No result found for this file in batch processing" }]) ∧
    processBatchFile c4env
        { originalPath := "/in/a.mp4", originalName := "a.mp4",
          destinationPath := "", status := "pending", errorMessage := "" }
        (resultFor c4results "a.mp4") =
      ({ originalPath := "/in/a.mp4", originalName := "a.mp4",
         destinationPath := "/out/movie/sci-fi/The Matrix (1999)" ++ "/f.mp4",
         status := "success", errorMessage := "" },
       "success",
       [{ subject := "a.mp4", ntype := "success", message := "processed" }]) ∧
    (processBatchFiles c4env { directory := "/in", status := "pending" }
        [{ originalPath := "/in/a.mp4", originalName := "a.mp4",
           destinationPath := "", status := "pending", errorMessage := "" },
         c4fileB]
        (.ok c4results)).1 = { directory := "/in", status := "completed" } := by
  refine ⟨?_, ?_, ?_⟩
  · exact (c4_batch_partial_failure c4env { directory := "/in", status := "pending" }
      [] c4results rfl).1 c4fileB (by decide)
  · exact (c4_batch_partial_failure c4env { directory := "/in", status := "pending" }
      [] c4results rfl).2.1
      { originalPath := "/in/a.mp4", originalName := "a.mp4",
        destinationPath := "", status := "pending", errorMessage := "" }
      { originalFilename := "a.mp4", title := "The Matrix", year := 1999,
        mediaType := "movie", season := 0, category := "movie",
        subcategory := "sci-fi" }
      "/out/movie/sci-fi/The Matrix (1999)"
      ("/out/movie/sci-fi/The Matrix (1999)" ++ "/f.mp4")
      (by decide) rfl rfl rfl
  · exact (c4_batch_partial_failure c4env { directory := "/in", status := "pending" }
      [{ originalPath := "/in/a.mp4", originalName := "a.mp4",
         destinationPath := "", status := "pending", errorMessage := "" },
       c4fileB]
      c4results rfl).2.2.1

/-! ## fileops: ProcessFile, copyFile, moveFile, symlinkFile
(internal/fileops)

The file system is a finite association of paths to file contents; all
modelled entries are regular files and directories are implicit.  The
fallible OS primitives are given Boolean failure oracles with one oracle
per distinct failure point of the Go code; `os.Rename` failing (e.g.
across devices) and `os.Remove` failing are the oracles of `moveFile`. -/

/-- A file system: paths mapped to contents. -/
abbrev FS := List (String × String)

/-- Contents at a path (`os.Stat` succeeds exactly when this is `some`). -/
def fsLookup (fs : FS) (p : String) : Option String :=
  (fs.find? (fun e => e.1 == p)).map (fun e => e.2)

/-- Remove a path. -/
def fsRemove (fs : FS) (p : String) : FS :=
  fs.filter (fun e => !(e.1 == p))

/-- Create or overwrite a path with the given contents. -/
def fsSet (fs : FS) (p v : String) : FS :=
  fsRemove fs p ++ [(p, v)]

lemma fsLookup_fsRemove_ne (fs : FS) (p q : String) (h : ¬ q = p) :
    fsLookup (fsRemove fs p) q = fsLookup fs q := by
  induction fs with
  | nil => rfl
  | cons e fs ih =>
    by_cases he : e.1 = p
    · have h1 : (!(e.1 == p)) = false := by simp [he]
      have h2 : (e.1 == q) = false := by
        simp [he]
        intro hc
        exact h hc.symm
      simp only [fsRemove, List.filter, h1] at ih ⊢
      rw [ih]
      simp [fsLookup, List.find?, h2]
    · have h1 : (!(e.1 == p)) = true := by simp [he]
      simp only [fsRemove, List.filter, h1] at ih ⊢
      by_cases heq : e.1 = q
      · simp [fsLookup, List.find?, heq]
      · have h2 : (e.1 == q) = false := by simp [heq]
        simp only [fsLookup, List.find?, h2]
        exact ih

lemma fsLookup_fsRemove_eq (fs : FS) (p : String) :
    fsLookup (fsRemove fs p) p = none := by
  induction fs with
  | nil => rfl
  | cons e fs ih =>
    by_cases he : e.1 = p
    · have h1 : (!(e.1 == p)) = false := by simp [he]
      simp only [fsRemove, List.filter, h1] at ih ⊢
      exact ih
    · have h1 : (!(e.1 == p)) = true := by simp [he]
      have h2 : (e.1 == p) = false := by simp [he]
      simp only [fsRemove, List.filter, h1] at ih ⊢
      simp only [fsLookup, List.find?, h2]
      exact ih

lemma fsLookup_append (fs₁ fs₂ : FS) (q : String) :
    fsLookup (fs₁ ++ fs₂) q =
      match fsLookup fs₁ q with
      | some v => some v
      | none => fsLookup fs₂ q := by
  induction fs₁ with
  | nil => simp [fsLookup]
  | cons e fs ih =>
    by_cases he : e.1 = q
    · simp [fsLookup, List.find?, he]
    · have h2 : (e.1 == q) = false := by simp [he]
      simp only [fsLookup, List.cons_append, List.find?, h2] at ih ⊢
      exact ih

lemma fsLookup_fsSet_ne (fs : FS) (p v : String) (q : String) (h : ¬ q = p) :
    fsLookup (fsSet fs p v) q = fsLookup fs q := by
  have hpq : (p == q) = false := by
    simp
    intro hc
    exact h hc.symm
  simp only [fsSet, fsLookup_append, fsLookup_fsRemove_ne fs p q h]
  cases hcase : fsLookup fs q with
  | none => simp [fsLookup, List.find?, hpq]
  | some v2 => rfl

lemma fsLookup_fsSet_eq (fs : FS) (p v : String) :
    fsLookup (fsSet fs p v) p = some v := by
  simp only [fsSet, fsLookup_append, fsLookup_fsRemove_eq]
  simp [fsLookup, List.find?]

/-- Outcome of a copy/move/symlink primitive: the error message when one
step failed, and the resulting file system. -/
structure OpResult where
  err : Option String
  fs : FS

/-- Failure oracles of the file-operation primitives, one per distinct
failure point of the Go code. -/
structure FileOpsEnv where
  mkdirOk : Bool
  openOk : Bool
  createOk : Bool
  ioOk : Bool
  syncOk : Bool
  chmodOk : Bool
  renameOk : Bool
  removeOk : Bool
  symlinkOk : Bool
  deriving DecidableEq, Repr

/-- `copyFile`: open the source, create the destination, copy, sync, set
permissions.  A failure of the byte copy leaves a partial destination; no
step ever touches the source entry. -/
def copyFile (env : FileOpsEnv) (fs : FS) (src dst : String) : OpResult :=
  if ¬ env.openOk then ⟨some "error opening source file", fs⟩
  else
    match fsLookup fs src with
    | none => ⟨some "error opening source file", fs⟩
    | some content =>
      if ¬ env.createOk then ⟨some "error creating destination file", fs⟩
      else
        let fs1 := fsSet fs dst ""
        if ¬ env.ioOk then ⟨some "error copying file", fsSet fs1 dst "partial"⟩
        else
          let fs2 := fsSet fs1 dst content
          if ¬ env.syncOk then ⟨some "error syncing file", fs2⟩
          else if ¬ env.chmodOk then ⟨some "error setting file permissions", fs2⟩
          else ⟨none, fs2⟩

/-- `moveFile`: try `os.Rename` (atomic when it succeeds); on rename
failure fall back to copy-then-delete, deleting the source only after the
copy has fully succeeded. -/
def moveFile (env : FileOpsEnv) (fs : FS) (src dst : String) : OpResult :=
  if env.renameOk && (fsLookup fs src).isSome then
    match fsLookup fs src with
    | some content => ⟨none, fsSet (fsRemove fs src) dst content⟩
    | none => ⟨none, fs⟩
  else
    match copyFile env fs src dst with
    | ⟨some e, cfs⟩ => ⟨some ("error copying file: " ++ e), cfs⟩
    | ⟨none, cfs⟩ =>
      if env.removeOk then ⟨none, fsRemove cfs src⟩
      else ⟨some "error removing source file", cfs⟩

/-- `symlinkFile`: create a symlink entry at the destination (`os.Symlink`
fails when the destination already exists). -/
def symlinkFile (env : FileOpsEnv) (fs : FS) (src dst : String) : OpResult :=
  if env.symlinkOk && (fsLookup fs dst).isNone then
    ⟨none, fsSet fs dst ("symlink:" ++ src)⟩
  else ⟨some "error creating symlink", fs⟩

/-- `filepath.Base` for a non-empty path: the part after the final slash. -/
def baseNameOf (path : String) : String :=
  String.mk ((path.data.reverse.takeWhile (fun c => ¬ (c = '/'))).reverse)

/-- `strings.TrimSuffix`. -/
def trimSuffixGo (s suf : String) : String :=
  if suf.data.isSuffixOf s.data then
    String.mk (s.data.take (s.data.length - suf.data.length))
  else s

/-- The suffixed candidate name `fmt.Sprintf("%s (%d)%s", base, i, ext)`. -/
def suffixedName (base ext : String) (i : Nat) : String :=
  base ++ " (" ++ toString i ++ ")" ++ ext

/-- The conflict-resolution loop `for i := 1; ; i++`, fuelled: the first
index from `i` (trying at most `fuel` indices) whose candidate path is not
taken. -/
def findFreshIdx (taken : String → Bool) (mk : Nat → String) : Nat → Nat → Option Nat
  | _, 0 => none
  | i, fuel + 1 => if taken (mk i) then findFreshIdx taken mk (i + 1) fuel else some i

/-- Result of `FileOps.ProcessFile`: the final written path or the error,
and the resulting file system. -/
structure PFResult where
  res : Except String String
  fs : FS

/-- The destination-path resolution of `ProcessFile`: the plain
`destDir/base‹ext›` when unused, otherwise the first free candidate
`destDir/base (i)‹ext›` for i = 1, 2, … (the search is fuelled by
`fs.length + 1`, enough for distinct candidate names). -/
def resolveDestPath (fs : FS) (destDir base ext : String) : Option String :=
  let dest0 := destDir ++ "/" ++ base ++ ext
  if (fsLookup fs dest0).isSome then
    (findFreshIdx (fun p => (fsLookup fs p).isSome)
      (fun i => destDir ++ "/" ++ suffixedName base ext i) 1 (fs.length + 1)).map
      (fun i => destDir ++ "/" ++ suffixedName base ext i)
  else some dest0

/-- The mode dispatch of `ProcessFile` (`switch f.config.Mode`), invoked
with the resolved, not-yet-existing destination path. -/
def dispatchMode (env : FileOpsEnv) (mode : String) (fs : FS)
    (sourcePath dp : String) : PFResult :=
  if mode = "copy" then
    match copyFile env fs sourcePath dp with
    | ⟨some e, cfs⟩ => ⟨.error ("error copying file: " ++ e), cfs⟩
    | ⟨none, cfs⟩ => ⟨.ok dp, cfs⟩
  else if mode = "move" then
    match moveFile env fs sourcePath dp with
    | ⟨some e, mfs⟩ => ⟨.error ("error moving file: " ++ e), mfs⟩
    | ⟨none, mfs⟩ => ⟨.ok dp, mfs⟩
  else if mode = "symlink" then
    match symlinkFile env fs sourcePath dp with
    | ⟨some e, sfs⟩ => ⟨.error ("error creating symlink: " ++ e), sfs⟩
    | ⟨none, sfs⟩ => ⟨.ok dp, sfs⟩
  else ⟨.error ("unknown file operation mode: " ++ mode), fs⟩

/-- `FileOps.ProcessFile`: validate the arguments and the source, ensure
the destination directory, resolve a destination path that does not yet
exist (appending " (i)" with the first free i ≥ 1 when the plain name is
taken), and dispatch on the configured mode.  The fuel of the search is
`fs.length + 1`, enough for a file system in which the candidate names are
distinct. -/
def processFileFS (env : FileOpsEnv) (mode : String) (fs : FS)
    (sourcePath destDir : String) : PFResult :=
  if sourcePath = "" then ⟨.error "source path cannot be empty", fs⟩
  else if destDir = "" then ⟨.error "destination directory cannot be empty", fs⟩
  else
    match fsLookup fs sourcePath with
    | none => ⟨.error "error getting file info", fs⟩
    | some _ =>
      if ¬ env.mkdirOk then ⟨.error "error creating destination directory", fs⟩
      else
        match resolveDestPath fs destDir
            (trimSuffixGo (baseNameOf sourcePath) (extOf (baseNameOf sourcePath)))
            (extOf (baseNameOf sourcePath)) with
        | none => ⟨.error "no unused destination path found", fs⟩
        | some dp => dispatchMode env mode fs sourcePath dp

lemma copyFile_fs_lookup (env : FileOpsEnv) (fs : FS) (src dst q : String)
    (hq : ¬ q = dst) :
    fsLookup (copyFile env fs src dst).fs q = fsLookup fs q := by
  unfold copyFile
  by_cases ho : env.openOk
  · simp only [ho, not_true, if_false, if_neg]
    cases hsrc : fsLookup fs src with
    | none => rfl
    | some content =>
      by_cases hc : env.createOk
      · by_cases hio : env.ioOk
        · by_cases hs : env.syncOk
          · by_cases hch : env.chmodOk <;>
              simp [hc, hio, hs, hch, fsLookup_fsSet_ne _ _ _ _ hq]
          · simp [hc, hio, hs, fsLookup_fsSet_ne _ _ _ _ hq]
        · simp [hc, hio, fsLookup_fsSet_ne _ _ _ _ hq]
      · simp [hc]
  · simp [ho]

lemma copyFile_ok_dst (env : FileOpsEnv) (fs : FS) (src dst content : String)
    (hsrc : fsLookup fs src = some content) :
    (copyFile env fs src dst).err = none →
    fsLookup (copyFile env fs src dst).fs dst = some content := by
  unfold copyFile
  by_cases ho : env.openOk
  · simp only [ho, not_true, if_false, if_neg, hsrc]
    by_cases hc : env.createOk
    · by_cases hio : env.ioOk
      · by_cases hs : env.syncOk
        · by_cases hch : env.chmodOk <;>
            simp [hc, hio, hs, hch, fsLookup_fsSet_eq]
        · simp [hc, hio, hs]
      · simp [hc, hio]
    · simp [hc]
  · simp [ho]

lemma moveFile_err_src (env : FileOpsEnv) (fs : FS) (src dst : String) (e : String)
    (hne : ¬ src = dst) :
    (moveFile env fs src dst).err = some e →
    fsLookup (moveFile env fs src dst).fs src = fsLookup fs src := by
  unfold moveFile
  by_cases hr : (env.renameOk && (fsLookup fs src).isSome) = true
  · rw [if_pos hr]
    cases hsrc : fsLookup fs src with
    | none => intro hcontr; cases hcontr
    | some content => intro hcontr; cases hcontr
  · rw [if_neg hr]
    cases hc : copyFile env fs src dst with
    | mk cerr cfs =>
      have hpres : fsLookup cfs src = fsLookup fs src := by
        have hgen := copyFile_fs_lookup env fs src dst src hne
        rw [hc] at hgen
        exact hgen
      cases cerr with
      | some e2 =>
        intro _
        exact hpres
      | none =>
        by_cases hrm : env.removeOk
        · simp [hrm]
        · simp only [hrm, Bool.false_eq_true, if_false]
          intro _
          exact hpres

lemma moveFile_ok_dst (env : FileOpsEnv) (fs : FS) (src dst content : String)
    (hsrc : fsLookup fs src = some content) (hne : ¬ dst = src) :
    (moveFile env fs src dst).err = none →
    fsLookup (moveFile env fs src dst).fs dst = some content := by
  unfold moveFile
  by_cases hr : (env.renameOk && (fsLookup fs src).isSome) = true
  · rw [if_pos hr, hsrc]
    intro _
    exact fsLookup_fsSet_eq _ _ _
  · rw [if_neg hr]
    cases hc : copyFile env fs src dst with
    | mk cerr cfs =>
      cases cerr with
      | some e2 => intro hcontr; cases hcontr
      | none =>
        have hdst : fsLookup cfs dst = some content := by
          have hgen := copyFile_ok_dst env fs src dst content hsrc
          rw [hc] at hgen
          exact hgen rfl
        by_cases hrm : env.removeOk
        · simp only [hrm, if_true]
          intro _
          show fsLookup (fsRemove cfs src) dst = some content
          rw [fsLookup_fsRemove_ne _ _ _ hne]
          exact hdst
        · simp [hrm]

lemma symlinkFile_err_fs (env : FileOpsEnv) (fs : FS) (src dst : String) (e : String) :
    (symlinkFile env fs src dst).err = some e →
    (symlinkFile env fs src dst).fs = fs := by
  unfold symlinkFile
  by_cases hs : (env.symlinkOk && (fsLookup fs dst).isNone) = true
  · rw [if_pos hs]
    intro hcontr
    cases hcontr
  · rw [if_neg hs]
    intro _
    rfl

lemma findFreshIdx_spec (taken : String → Bool) (mk : Nat → String) :
    ∀ (fuel i j : Nat), findFreshIdx taken mk i fuel = some j →
      taken (mk j) = false ∧ i ≤ j ∧ ∀ k, i ≤ k → k < j → taken (mk k) = true := by
  intro fuel
  induction fuel with
  | zero => intro i j h; cases h
  | succ fuel ih =>
    intro i j h
    by_cases ht : taken (mk i) = true
    · simp only [findFreshIdx, ht, if_true] at h
      obtain ⟨h1, h2, h3⟩ := ih (i + 1) j h
      refine ⟨h1, by omega, fun k hk1 hk2 => ?_⟩
      by_cases hki : k = i
      · rw [hki]; exact ht
      · exact h3 k (by omega) hk2
    · have ht2 : taken (mk i) = false := by
        cases htt : taken (mk i)
        · rfl
        · exact absurd htt ht
      simp only [findFreshIdx, ht2, Bool.false_eq_true, if_false] at h
      cases h
      exact ⟨ht2, Nat.le_refl i, fun k hk1 hk2 => by omega⟩

lemma resolveDestPath_fresh (fs : FS) (destDir base ext dp : String) :
    resolveDestPath fs destDir base ext = some dp → fsLookup fs dp = none := by
  unfold resolveDestPath
  by_cases hd : (fsLookup fs (destDir ++ "/" ++ base ++ ext)).isSome
  · rw [if_pos hd]
    cases hf : findFreshIdx (fun p => (fsLookup fs p).isSome)
        (fun i => destDir ++ "/" ++ suffixedName base ext i) 1 (fs.length + 1) with
    | none => intro hcontr; cases hcontr
    | some i =>
      intro h
      obtain ⟨hfree, _, _⟩ := findFreshIdx_spec _ _ _ _ _ hf
      have h2 : destDir ++ "/" ++ suffixedName base ext i = dp := by
        simpa using h
      rw [← h2]
      cases hcase : fsLookup fs (destDir ++ "/" ++ suffixedName base ext i) with
      | none => rfl
      | some v =>
        rw [hcase] at hfree
        cases hfree
  · rw [if_neg hd]
    intro h
    injection h with h2
    rw [← h2]
    cases hcase : fsLookup fs (destDir ++ "/" ++ base ++ ext) with
    | none => rfl
    | some v =>
      rw [hcase] at hd
      exact absurd rfl hd

lemma moveFile_fs_lookup_other (env : FileOpsEnv) (fs : FS) (src dst q : String)
    (hqs : ¬ q = src) (hqd : ¬ q = dst) :
    fsLookup (moveFile env fs src dst).fs q = fsLookup fs q := by
  unfold moveFile
  by_cases hr : (env.renameOk && (fsLookup fs src).isSome) = true
  · rw [if_pos hr]
    cases hsrc : fsLookup fs src with
    | none => rfl
    | some content =>
      show fsLookup (fsSet (fsRemove fs src) dst content) q = fsLookup fs q
      rw [fsLookup_fsSet_ne _ _ _ _ hqd, fsLookup_fsRemove_ne _ _ _ hqs]
  · rw [if_neg hr]
    cases hc : copyFile env fs src dst with
    | mk cerr cfs =>
      have hpres : fsLookup cfs q = fsLookup fs q := by
        have hgen := copyFile_fs_lookup env fs src dst q hqd
        rw [hc] at hgen
        exact hgen
      cases cerr with
      | some e2 => exact hpres
      | none =>
        by_cases hrm : env.removeOk
        · simp only [hrm, if_true]
          show fsLookup (fsRemove cfs src) q = fsLookup fs q
          rw [fsLookup_fsRemove_ne _ _ _ hqs]
          exact hpres
        · simp only [hrm, Bool.false_eq_true, if_false]
          exact hpres

lemma symlinkFile_fs_lookup_other (env : FileOpsEnv) (fs : FS) (src dst q : String)
    (hqd : ¬ q = dst) :
    fsLookup (symlinkFile env fs src dst).fs q = fsLookup fs q := by
  unfold symlinkFile
  by_cases hs : (env.symlinkOk && (fsLookup fs dst).isNone) = true
  · rw [if_pos hs]
    exact fsLookup_fsSet_ne _ _ _ _ hqd
  · rw [if_neg hs]

lemma dispatchMode_err_src (env : FileOpsEnv) (mode : String) (fs : FS)
    (src dp e : String) (hne : ¬ src = dp) :
    (dispatchMode env mode fs src dp).res = .error e →
    fsLookup (dispatchMode env mode fs src dp).fs src = fsLookup fs src := by
  unfold dispatchMode
  by_cases hcopy : mode = "copy"
  · rw [if_pos hcopy]
    cases hc : copyFile env fs src dp with
    | mk cerr cfs =>
      have hpres : fsLookup cfs src = fsLookup fs src := by
        have hgen := copyFile_fs_lookup env fs src dp src hne
        rw [hc] at hgen
        exact hgen
      cases cerr with
      | some e2 =>
        intro _
        exact hpres
      | none =>
        intro hcontr
        cases hcontr
  · rw [if_neg hcopy]
    by_cases hmove : mode = "move"
    · rw [if_pos hmove]
      cases hc : moveFile env fs src dp with
      | mk merr mfs =>
        cases merr with
        | some e2 =>
          intro _
          have hgen := moveFile_err_src env fs src dp e2 hne
          rw [hc] at hgen
          exact hgen rfl
        | none =>
          intro hcontr
          cases hcontr
    · rw [if_neg hmove]
      by_cases hsym : mode = "symlink"
      · rw [if_pos hsym]
        cases hc : symlinkFile env fs src dp with
        | mk serr sfs =>
          cases serr with
          | some e2 =>
            intro _
            have hgen := symlinkFile_err_fs env fs src dp e2
            rw [hc] at hgen
            show fsLookup sfs src = fsLookup fs src
            rw [show sfs = fs from hgen rfl]
          | none =>
            intro hcontr
            cases hcontr
      · rw [if_neg hsym]
        intro _
        rfl

lemma dispatchMode_move_ok_dst (env : FileOpsEnv) (fs : FS) (src dp content p : String)
    (hsrc : fsLookup fs src = some content) (hne : ¬ dp = src) :
    (dispatchMode env "move" fs src dp).res = .ok p →
    fsLookup (dispatchMode env "move" fs src dp).fs p = some content := by
  unfold dispatchMode
  rw [if_neg (by decide : ¬ ("move" : String) = "copy"), if_pos rfl]
  cases hc : moveFile env fs src dp with
  | mk merr mfs =>
    cases merr with
    | some e2 =>
      intro hcontr
      cases hcontr
    | none =>
      intro hok
      have hp : dp = p := by
        injection hok
      have hgen := moveFile_ok_dst env fs src dp content hsrc hne
      rw [hc] at hgen
      rw [← hp]
      exact hgen rfl

lemma dispatchMode_preserves_other (env : FileOpsEnv) (mode : String) (fs : FS)
    (src dp q : String) (hqs : ¬ q = src) (hqd : ¬ q = dp) :
    fsLookup (dispatchMode env mode fs src dp).fs q = fsLookup fs q := by
  unfold dispatchMode
  by_cases hcopy : mode = "copy"
  · rw [if_pos hcopy]
    cases hc : copyFile env fs src dp with
    | mk cerr cfs =>
      have hpres : fsLookup cfs q = fsLookup fs q := by
        have hgen := copyFile_fs_lookup env fs src dp q hqd
        rw [hc] at hgen
        exact hgen
      cases cerr with
      | some e2 => exact hpres
      | none => exact hpres
  · rw [if_neg hcopy]
    by_cases hmove : mode = "move"
    · rw [if_pos hmove]
      cases hc : moveFile env fs src dp with
      | mk merr mfs =>
        have hpres : fsLookup mfs q = fsLookup fs q := by
          have hgen := moveFile_fs_lookup_other env fs src dp q hqs hqd
          rw [hc] at hgen
          exact hgen
        cases merr with
        | some e2 => exact hpres
        | none => exact hpres
    · rw [if_neg hmove]
      by_cases hsym : mode = "symlink"
      · rw [if_pos hsym]
        cases hc : symlinkFile env fs src dp with
        | mk serr sfs =>
          have hpres : fsLookup sfs q = fsLookup fs q := by
            have hgen := symlinkFile_fs_lookup_other env fs src dp q hqd
            rw [hc] at hgen
            exact hgen
          cases serr with
          | some e2 => exact hpres
          | none => exact hpres
      · rw [if_neg hsym]

lemma dispatchMode_ok_path (env : FileOpsEnv) (mode : String) (fs : FS)
    (src dp p : String) :
    (dispatchMode env mode fs src dp).res = .ok p → p = dp := by
  unfold dispatchMode
  by_cases hcopy : mode = "copy"
  · rw [if_pos hcopy]
    cases hc : copyFile env fs src dp with
    | mk cerr cfs =>
      cases cerr with
      | some e2 => intro hcontr; cases hcontr
      | none =>
        intro hok
        injection hok with h2
        exact h2.symm
  · rw [if_neg hcopy]
    by_cases hmove : mode = "move"
    · rw [if_pos hmove]
      cases hc : moveFile env fs src dp with
      | mk merr mfs =>
        cases merr with
        | some e2 => intro hcontr; cases hcontr
        | none =>
          intro hok
          injection hok with h2
          exact h2.symm
    · rw [if_neg hmove]
      by_cases hsym : mode = "symlink"
      · rw [if_pos hsym]
        cases hc : symlinkFile env fs src dp with
        | mk serr sfs =>
          cases serr with
          | some e2 => intro hcontr; cases hcontr
          | none =>
            intro hok
            injection hok with h2
            exact h2.symm
      · rw [if_neg hsym]
        intro hcontr
        cases hcontr

lemma processFileFS_cases (env : FileOpsEnv) (mode : String) (fs : FS)
    (src destDir : String) :
    (∃ e, processFileFS env mode fs src destDir = ⟨.error e, fs⟩) ∨
    (∃ content dp, fsLookup fs src = some content ∧ fsLookup fs dp = none ∧
      processFileFS env mode fs src destDir = dispatchMode env mode fs src dp) := by
  unfold processFileFS
  by_cases hse : src = ""
  · rw [if_pos hse]
    exact Or.inl ⟨_, rfl⟩
  rw [if_neg hse]
  by_cases hde : destDir = ""
  · rw [if_pos hde]
    exact Or.inl ⟨_, rfl⟩
  rw [if_neg hde]
  cases hsrc : fsLookup fs src with
  | none => exact Or.inl ⟨_, rfl⟩
  | some content =>
    by_cases hm : env.mkdirOk = true
    · rw [if_neg (not_not_intro hm)]
      cases hdp : resolveDestPath fs destDir
          (trimSuffixGo (baseNameOf src) (extOf (baseNameOf src)))
          (extOf (baseNameOf src)) with
      | none => exact Or.inl ⟨_, rfl⟩
      | some dp =>
        exact Or.inr ⟨content, dp, rfl, resolveDestPath_fresh _ _ _ _ _ hdp, rfl⟩
    · rw [if_pos hm]
      exact Or.inl ⟨_, rfl⟩

/-- `Processor.ProcessMediaFile`: mark processing, classify, create the
media info record, generate the destination path, place the file; the
first failing step marks the record `failed` with the corresponding
message and emits an error notification; success records the destination
path. -/
def processMediaFileProc (env : BatchEnv) (mf : MediaFileRec)
    (llmResult : Except String MediaFileResult) :
    MediaFileRec × List NotificationRec :=
  let mfP := { mf with status := "processing" }
  match llmResult with
  | .error e =>
    ({ mfP with
        status := "failed",
        errorMessage := "LLM processing error: " ++ e },
     errNotif env mf ("LLM processing error: " ++ e))
  | .ok r =>
    match env.createMediaInfo mf.originalName with
    | some e =>
      ({ mfP with
          status := "failed",
          errorMessage := "Error creating media info record: " ++ e },
       errNotif env mf ("Error creating media info record: " ++ e))
    | none =>
      match generateDestinationPath env.destRoot r with
      | .error e =>
        ({ mfP with
            status := "failed",
            errorMessage := "Error generating destination path: " ++ e },
         errNotif env mf ("Error generating destination path: " ++ e))
      | .ok destPath =>
        match env.fileOp mf.originalPath destPath with
        | .error e =>
          ({ mfP with
              status := "failed",
              errorMessage := "Error processing file: " ++ e },
           errNotif env mf ("Error processing file: " ++ e))
        | .ok fp =>
          ({ mfP with status := "success", destinationPath := fp },
           if env.notificationsEnabled then
             [{ subject := mf.originalName, ntype := "success",
                message := env.successMessage mf r }]
           else [])

/-- C7.  (i) Whenever `ProcessFile` fails — in copy, move or symlink mode —
the source is untouched: its contents at the original path are exactly what
they were before the call.  (ii) In move mode a successful call leaves the
source's contents at the returned destination path (the copy completed
before any deletion).  (iii) In the orchestrator, a placement failure marks
the record `failed` with the human-readable (non-empty) message "Error
processing file: …" and emits an error notification for it. -/
theorem c7_failed_placement_preserves_source (env : FileOpsEnv) (mode : String)
    (fs : FS) (src destDir : String) (benv : BatchEnv) (mf : MediaFileRec)
    (r : MediaFileResult) (destPath e2 : String) :
    (∀ e, (processFileFS env mode fs src destDir).res = .error e →
      fsLookup (processFileFS env mode fs src destDir).fs src = fsLookup fs src) ∧
    (∀ p, mode = "move" → (processFileFS env mode fs src destDir).res = .ok p →
      fsLookup (processFileFS env mode fs src destDir).fs p = fsLookup fs src) ∧
    (benv.notificationsEnabled = true →
      benv.createMediaInfo mf.originalName = none →
      generateDestinationPath benv.destRoot r = .ok destPath →
      benv.fileOp mf.originalPath destPath = .error e2 →
      (processMediaFileProc benv mf (.ok r)).1.status = "failed" ∧
      (processMediaFileProc benv mf (.ok r)).1.errorMessage =
        "Error processing file: " ++ e2 ∧
      ¬ (processMediaFileProc benv mf (.ok r)).1.errorMessage = "" ∧
      (processMediaFileProc benv mf (.ok r)).2 =
        [{ subject := mf.originalName, ntype := "error",
           message := "Error processing file: " ++ mf.originalName ++ "\n" ++
             "Error: " ++ ("Error processing file: " ++ e2) }]) := by
  refine ⟨?_, ?_, ?_⟩
  · intro e he
    rcases processFileFS_cases env mode fs src destDir with ⟨e3, heq⟩ |
      ⟨content, dp, hsrc, hfresh, heq⟩
    · rw [heq]
    · rw [heq] at he ⊢
      have hne : ¬ src = dp := by
        intro hcontr
        rw [hcontr, hfresh] at hsrc
        cases hsrc
      exact dispatchMode_err_src env mode fs src dp e hne he
  · intro p hm hok
    rcases processFileFS_cases env mode fs src destDir with ⟨e3, heq⟩ |
      ⟨content, dp, hsrc, hfresh, heq⟩
    · rw [heq] at hok
      simp at hok
    · subst hm
      rw [heq] at hok ⊢
      have hne : ¬ dp = src := by
        intro hcontr
        rw [← hcontr] at hsrc
        rw [hfresh] at hsrc
        cases hsrc
      rw [hsrc]
      exact dispatchMode_move_ok_dst env fs src dp content p hsrc hne hok
  · intro hn hmi hgen hfop
    refine ⟨?_, ?_, ?_, ?_⟩
    · simp [processMediaFileProc, hmi, hgen, hfop]
    · simp [processMediaFileProc, hmi, hgen, hfop]
    · simp only [processMediaFileProc, hmi, hgen, hfop]
      intro hcontr
      have hlen := congrArg String.length hcontr
      rw [String.length_append] at hlen
      rw [show ("" : String).length = 0 from rfl] at hlen
      rw [show ("Error processing file: " : String).length = 23 from rfl] at hlen
      omega
    · simp [processMediaFileProc, errNotif, hmi, hgen, hfop, hn]

/-- A file-operation environment where every primitive succeeds. -/
def fileOpsAllOk : FileOpsEnv :=
  { mkdirOk := true, openOk := true, createOk := true, ioOk := true,
    syncOk := true, chmodOk := true, renameOk := true, removeOk := true,
    symlinkOk := true }

/-- A file-operation environment where the byte copy fails. -/
def c7fsenv : FileOpsEnv :=
  { fileOpsAllOk with ioOk := false }

/-- Orchestrator environment for the C7 witness: placement always fails
with "disk full". -/
def c7benv : BatchEnv :=
  { notificationsEnabled := true, createMediaInfo := fun _ => none,
    destRoot := "/out", fileOp := fun _ _ => .error "disk full",
    successMessage := fun _ _ => "processed" }

/-- Witness for C7: a failing copy leaves the source untouched; a
successful move carries the source contents to the returned path; the
record of a failed placement is `failed` with the wrapped message. -/
theorem c7_failed_placement_preserves_source_witness :
    fsLookup (processFileFS c7fsenv "copy" [("/in/a.mp4", "X")] "/in/a.mp4"
        "/out").fs "/in/a.mp4" = fsLookup [("/in/a.mp4", "X")] "/in/a.mp4" ∧
    fsLookup (processFileFS fileOpsAllOk "move" [("/in/a.mp4", "X")] "/in/a.mp4"
        "/out").fs "/out/a.mp4" = fsLookup [("/in/a.mp4", "X")] "/in/a.mp4" ∧
    ((processMediaFileProc c7benv
        { originalPath := "/in/a.mp4", originalName := "a.mp4",
          destinationPath := "", status := "pending", errorMessage := "" }
        (.ok { originalFilename := "a.mp4", title := "The Matrix", year := 1999,
               mediaType := "movie", season := 0, category := "movie",
               subcategory := "sci-fi" })).1.status = "failed" ∧
     (processMediaFileProc c7benv
        { originalPath := "/in/a.mp4", originalName := "a.mp4",
          destinationPath := "", status := "pending", errorMessage := "" }
        (.ok { originalFilename := "a.mp4", title := "The Matrix", year := 1999,
               mediaType := "movie", season := 0, category := "movie",
               subcategory := "sci-fi" })).1.errorMessage =
       "Error processing file: " ++ "disk full") := by
  refine ⟨?_, ?_, ?_⟩
  · exact (c7_failed_placement_preserves_source c7fsenv "copy"
      [("/in/a.mp4", "X")] "/in/a.mp4" "/out" c7benv
      { originalPath := "/in/a.mp4", originalName := "a.mp4",
        destinationPath := "", status := "pending", errorMessage := "" }
      { originalFilename := "a.mp4", title := "The Matrix", year := 1999,
        mediaType := "movie", season := 0, category := "movie",
        subcategory := "sci-fi" } "/x" "disk full").1
      "error copying file: error copying file" rfl
  · exact (c7_failed_placement_preserves_source fileOpsAllOk "move"
      [("/in/a.mp4", "X")] "/in/a.mp4" "/out" c7benv
      { originalPath := "/in/a.mp4", originalName := "a.mp4",
        destinationPath := "", status := "pending", errorMessage := "" }
      { originalFilename := "a.mp4", title := "The Matrix", year := 1999,
        mediaType := "movie", season := 0, category := "movie",
        subcategory := "sci-fi" } "/x" "disk full").2.1
      "/out/a.mp4" rfl rfl
  · have h := (c7_failed_placement_preserves_source fileOpsAllOk "move"
      [("/in/a.mp4", "X")] "/in/a.mp4" "/out" c7benv
      { originalPath := "/in/a.mp4", originalName := "a.mp4",
        destinationPath := "", status := "pending", errorMessage := "" }
      { originalFilename := "a.mp4", title := "The Matrix", year := 1999,
        mediaType := "movie", season := 0, category := "movie",
        subcategory := "sci-fi" }
      "/out/movie/sci-fi/The Matrix (1999)" "disk full").2.2
      rfl rfl rfl rfl
    exact ⟨h.1, h.2.1⟩

/-- C10 counterexample.  Moving a file into its own directory: the source
`/dest/a.mp4` existed in the destination directory before the call, the
call succeeds returning the suffixed path `/dest/a (1).mp4`, and the
original path no longer exists — so not every pre-existing file of the
destination directory is left unchanged. -/
theorem c10_counterexample :
    (processFileFS fileOpsAllOk "move" [("/dest/a.mp4", "X")] "/dest/a.mp4"
        "/dest").res = .ok "/dest/a (1).mp4" ∧
    fsLookup [("/dest/a.mp4", "X")] "/dest/a.mp4" = some "X" ∧
    fsLookup (processFileFS fileOpsAllOk "move" [("/dest/a.mp4", "X")]
        "/dest/a.mp4" "/dest").fs "/dest/a.mp4" = none := by
  exact ⟨rfl, rfl, rfl⟩

/-- C10 amended.  (i) A successful `ProcessFile` returns a path at which no
file existed before the call (it never overwrites).  (ii) Every file other
than the source is unchanged by the call, whatever its outcome.  (iii) The
destination-path resolution returns the plain name when it is unused, and
otherwise the suffixed name " (n)" with the smallest n ≥ 1 whose path does
not exist, every smaller candidate being taken. -/
theorem c10_no_overwrite (env : FileOpsEnv) (mode : String) (fs : FS)
    (src destDir : String) :
    (∀ p, (processFileFS env mode fs src destDir).res = .ok p →
      fsLookup fs p = none) ∧
    (∀ q, ¬ q = src → (fsLookup fs q).isSome = true →
      fsLookup (processFileFS env mode fs src destDir).fs q = fsLookup fs q) ∧
    (∀ (fs2 : FS) (destDir2 base ext dp : String),
      resolveDestPath fs2 destDir2 base ext = some dp →
      (fsLookup fs2 (destDir2 ++ "/" ++ base ++ ext) = none ∧
        dp = destDir2 ++ "/" ++ base ++ ext) ∨
      (∃ n, 1 ≤ n ∧ dp = destDir2 ++ "/" ++ suffixedName base ext n ∧
        fsLookup fs2 dp = none ∧
        ∀ k, 1 ≤ k → k < n →
          (fsLookup fs2 (destDir2 ++ "/" ++ suffixedName base ext k)).isSome =
            true)) := by
  refine ⟨?_, ?_, ?_⟩
  · intro p hok
    rcases processFileFS_cases env mode fs src destDir with ⟨e3, heq⟩ |
      ⟨content, dp, hsrc, hfresh, heq⟩
    · rw [heq] at hok
      simp at hok
    · rw [heq] at hok
      rw [dispatchMode_ok_path env mode fs src dp p hok]
      exact hfresh
  · intro q hqs hq
    rcases processFileFS_cases env mode fs src destDir with ⟨e3, heq⟩ |
      ⟨content, dp, hsrc, hfresh, heq⟩
    · rw [heq]
    · rw [heq]
      have hqd : ¬ q = dp := by
        intro hcontr
        rw [hcontr, hfresh] at hq
        cases hq
      exact dispatchMode_preserves_other env mode fs src dp q hqs hqd
  · intro fs2 destDir2 base ext dp hres
    unfold resolveDestPath at hres
    by_cases hd : (fsLookup fs2 (destDir2 ++ "/" ++ base ++ ext)).isSome
    · rw [if_pos hd] at hres
      cases hf : findFreshIdx (fun p => (fsLookup fs2 p).isSome)
          (fun i => destDir2 ++ "/" ++ suffixedName base ext i) 1
          (fs2.length + 1) with
      | none =>
        rw [hf] at hres
        cases hres
      | some i =>
        rw [hf] at hres
        have hdpi : destDir2 ++ "/" ++ suffixedName base ext i = dp := by
          simpa using hres
        obtain ⟨hfree, hge, hmin⟩ := findFreshIdx_spec _ _ _ _ _ hf
        refine Or.inr ⟨i, hge, hdpi.symm, ?_, fun k hk1 hk2 => hmin k hk1 hk2⟩
        rw [← hdpi]
        cases hcase : fsLookup fs2 (destDir2 ++ "/" ++ suffixedName base ext i) with
        | none => rfl
        | some v =>
          rw [hcase] at hfree
          cases hfree
    · rw [if_neg hd] at hres
      injection hres with h2
      refine Or.inl ⟨?_, h2.symm⟩
      cases hcase : fsLookup fs2 (destDir2 ++ "/" ++ base ++ ext) with
      | none => rfl
      | some v =>
        rw [hcase] at hd
        exact absurd rfl hd

/-- Witness for the amended C10: a move beside an existing `/dest/a.mp4`
and `/dest/b.mp4` returns the fresh suffixed path, leaves the unrelated
existing file unchanged, and the resolution picks n = 1. -/
theorem c10_no_overwrite_witness :
    fsLookup [("/dest/a.mp4", "X"), ("/dest/b.mp4", "Y")] "/dest/a (1).mp4" =
      none ∧
    fsLookup (processFileFS fileOpsAllOk "move"
        [("/dest/a.mp4", "X"), ("/dest/b.mp4", "Y")] "/dest/a.mp4"
        "/dest").fs "/dest/b.mp4" =
      fsLookup [("/dest/a.mp4", "X"), ("/dest/b.mp4", "Y")] "/dest/b.mp4" ∧
    ((fsLookup [("/dest/a.mp4", "X"), ("/dest/b.mp4", "Y")]
        ("/dest" ++ "/" ++ "a" ++ ".mp4") = none ∧
      "/dest/a (1).mp4" = "/dest" ++ "/" ++ "a" ++ ".mp4") ∨
     (∃ n, 1 ≤ n ∧
       "/dest/a (1).mp4" = "/dest" ++ "/" ++ suffixedName "a" ".mp4" n ∧
       fsLookup [("/dest/a.mp4", "X"), ("/dest/b.mp4", "Y")]
         "/dest/a (1).mp4" = none ∧
       ∀ k, 1 ≤ k → k < n →
         (fsLookup [("/dest/a.mp4", "X"), ("/dest/b.mp4", "Y")]
           ("/dest" ++ "/" ++ suffixedName "a" ".mp4" k)).isSome = true)) := by
  refine ⟨?_, ?_, ?_⟩
  · exact (c10_no_overwrite fileOpsAllOk "move"
      [("/dest/a.mp4", "X"), ("/dest/b.mp4", "Y")] "/dest/a.mp4" "/dest").1
      "/dest/a (1).mp4" rfl
  · exact (c10_no_overwrite fileOpsAllOk "move"
      [("/dest/a.mp4", "X"), ("/dest/b.mp4", "Y")] "/dest/a.mp4" "/dest").2.1
      "/dest/b.mp4" (by decide) rfl
  · exact (c10_no_overwrite fileOpsAllOk "move"
      [("/dest/a.mp4", "X"), ("/dest/b.mp4", "Y")] "/dest/a.mp4" "/dest").2.2
      [("/dest/a.mp4", "X"), ("/dest/b.mp4", "Y")] "/dest" "a" ".mp4"
      "/dest/a (1).mp4" rfl
